import Mathlib

/-!
Verification development for the emart-crawl-api repository.

The Python sources are shallowly embedded as pure Lean functions:
  * `firebase_uploader.py` — `update_price_history` and the upload run
    `upload_json_to_firestore` (Firestore is modelled as an explicit pair of
    key-to-document maps; the cooperative-cancellation `Event` is modelled as a
    stream of booleans indexed by the number of `_should_stop` evaluations
    performed so far; store exceptions are modelled by per-record failure
    oracles, caught exactly where the source catches them).
  * `emart_json.py` — `_sleep_with_cancel` (over `ℚ`, emitting the list of
    individual sleep durations) and the per-category page loop of
    `run_scraper` (network fetches are an oracle from page number to either a
    parsed page or a raised request error; the snapshot file is modelled by
    the last content written to it).
-/

namespace Emart

/-- Price snapshot dict built in `firebase_uploader.py` (lines 220-224): the
three keys of `price_info`; a missing key or JSON null is `none`. -/
structure PriceInfo where
  original_price : Option String
  selling_price : Option String
  last_updated : Option String
deriving DecidableEq, Repr

/-- Document of the `emart_price` collection as read and written by
`update_price_history`: the four top-level fields plus the `price_history`
array (absent array read back as `[]`). -/
structure PriceDoc where
  id : String
  out_of_stock : Option String
  quantity : Option String
  last_updated : Option String
  price_history : List PriceInfo
deriving DecidableEq, Repr

/-- Reading `doc.to_dict().get("price_history", []) if doc.exists else []`
(`firebase_uploader.py` line 43). -/
def storedHistory (doc : Option PriceDoc) : List PriceInfo :=
  match doc with
  | some d => d.price_history
  | none => []

/-- Embedding of `update_price_history` (`firebase_uploader.py` lines 32-67):
given the current document (the result of `price_ref.get()`), it returns the
document written back by `price_ref.set(..., merge=True)` together with the
returned classification string.  The surrounding `try/except` (which turns a
raised store exception into `"error"`) is modelled at the call site in the
upload run by a failure oracle, since this pure core cannot raise. -/
def update_price_history (doc : Option PriceDoc) (product_id : String)
    (out_of_stock quantity last_updated : Option String) (price_info : PriceInfo) :
    PriceDoc × String :=
  let price_history := storedHistory doc
  let price_has_changed : Bool :=
    match price_history.getLast? with
    | some last_record =>
        ! (decide (last_record.original_price = price_info.original_price
            ∧ last_record.selling_price = price_info.selling_price))
    | none => true
  if price_has_changed then
    (⟨product_id, out_of_stock, quantity, last_updated, price_history ++ [price_info]⟩,
      "updated")
  else
    (⟨product_id, out_of_stock, quantity, last_updated, price_history⟩, "skipped")

/-- Helper: with an empty stored history the call appends and classifies
`"updated"`. -/
theorem uph_of_nil (doc : Option PriceDoc) (pid : String) (oos qty lu : Option String)
    (p : PriceInfo) (hnil : storedHistory doc = []) :
    update_price_history doc pid oos qty lu p =
      (⟨pid, oos, qty, lu, storedHistory doc ++ [p]⟩, "updated") := by
  simp [update_price_history, hnil]

/-- Helper: when the last history entry differs on one of the two price
fields, the call appends and classifies `"updated"`. -/
theorem uph_of_last_ne (doc : Option PriceDoc) (pid : String) (oos qty lu : Option String)
    (p : PriceInfo) (last : PriceInfo) (h : (storedHistory doc).getLast? = some last)
    (hne : ¬(last.original_price = p.original_price ∧
      last.selling_price = p.selling_price)) :
    update_price_history doc pid oos qty lu p =
      (⟨pid, oos, qty, lu, storedHistory doc ++ [p]⟩, "updated") := by
  simp only [update_price_history, h]
  simp [hne]

/-- Helper: when the last history entry carries the same two prices, the call
leaves the history alone, refreshes the top-level fields and classifies
`"skipped"`. -/
theorem uph_of_last_eq (doc : Option PriceDoc) (pid : String) (oos qty lu : Option String)
    (p : PriceInfo) (last : PriceInfo) (h : (storedHistory doc).getLast? = some last)
    (h₁ : last.original_price = p.original_price)
    (h₂ : last.selling_price = p.selling_price) :
    update_price_history doc pid oos qty lu p =
      (⟨pid, oos, qty, lu, storedHistory doc⟩, "skipped") := by
  simp only [update_price_history, h]
  simp [h₁, h₂]

/-- C1: for every call to `update_price_history`, if the stored history is
empty or the incoming pair `(original_price, selling_price)` differs from the
last history entry, exactly one new snapshot is appended at the end and the
call returns `"updated"`; if the last entry carries the same two prices, the
history is untouched, only the top-level fields `id`, `out_of_stock`,
`quantity`, `last_updated` are written, and the call returns `"skipped"`;
and the decision depends only on the two price fields, never on the
`last_updated` timestamp of the incoming snapshot. -/
theorem update_price_history_snapshot_rule
    (doc : Option PriceDoc) (pid : String) (oos qty lu : Option String) (p : PriceInfo) :
    (storedHistory doc = [] →
      update_price_history doc pid oos qty lu p =
        (⟨pid, oos, qty, lu, storedHistory doc ++ [p]⟩, "updated")) ∧
    (∀ last, (storedHistory doc).getLast? = some last →
      ¬(last.original_price = p.original_price ∧ last.selling_price = p.selling_price) →
      update_price_history doc pid oos qty lu p =
        (⟨pid, oos, qty, lu, storedHistory doc ++ [p]⟩, "updated")) ∧
    (∀ last, (storedHistory doc).getLast? = some last →
      last.original_price = p.original_price → last.selling_price = p.selling_price →
      update_price_history doc pid oos qty lu p =
        (⟨pid, oos, qty, lu, storedHistory doc⟩, "skipped")) ∧
    (∀ t₁ t₂ : Option String,
      (update_price_history doc pid oos qty lu
        ⟨p.original_price, p.selling_price, t₁⟩).2 =
      (update_price_history doc pid oos qty lu
        ⟨p.original_price, p.selling_price, t₂⟩).2) := by
  refine ⟨uph_of_nil doc pid oos qty lu p, uph_of_last_ne doc pid oos qty lu p,
    uph_of_last_eq doc pid oos qty lu p, ?_⟩
  intro t₁ t₂
  simp only [update_price_history]
  cases h : (storedHistory doc).getLast? with
  | none => simp
  | some last => by_cases hc : last.original_price = p.original_price
      ∧ last.selling_price = p.selling_price <;> simp [hc]

/-- Witness for C1: evaluating the three branches on concrete documents. -/
theorem update_price_history_snapshot_rule_witness :
    (update_price_history none "p1" none none none ⟨some "100", some "90", some "t0"⟩ =
      (⟨"p1", none, none, none, [⟨some "100", some "90", some "t0"⟩]⟩, "updated")) ∧
    (update_price_history
        (some ⟨"p1", none, none, none, [⟨some "100", some "90", some "t0"⟩]⟩)
        "p1" none none none ⟨some "100", some "80", some "t1"⟩ =
      (⟨"p1", none, none, none,
        [⟨some "100", some "90", some "t0"⟩, ⟨some "100", some "80", some "t1"⟩]⟩,
        "updated")) ∧
    (update_price_history
        (some ⟨"p1", none, none, none, [⟨some "100", some "90", some "t0"⟩]⟩)
        "p1" (some "Y") (some "1kg") (some "t1") ⟨some "100", some "90", some "t1"⟩ =
      (⟨"p1", some "Y", some "1kg", some "t1", [⟨some "100", some "90", some "t0"⟩]⟩,
        "skipped")) := by
  refine ⟨?_, ?_, ?_⟩
  · exact (update_price_history_snapshot_rule none "p1" none none none
      ⟨some "100", some "90", some "t0"⟩).1 rfl
  · exact (update_price_history_snapshot_rule
      (some ⟨"p1", none, none, none, [⟨some "100", some "90", some "t0"⟩]⟩)
      "p1" none none none ⟨some "100", some "80", some "t1"⟩).2.1
      ⟨some "100", some "90", some "t0"⟩ rfl (by decide)
  · exact (update_price_history_snapshot_rule
      (some ⟨"p1", none, none, none, [⟨some "100", some "90", some "t0"⟩]⟩)
      "p1" (some "Y") (some "1kg") (some "t1") ⟨some "100", some "90", some "t1"⟩).2.2.1
      ⟨some "100", some "90", some "t0"⟩ rfl rfl rfl

/-- C3: price sync is idempotent.  Running `update_price_history` twice in a
row with the same price pair (the timestamps may differ) makes the second call
return `"skipped"` without touching the history produced by the first call,
and the first call either appended exactly one snapshot (classification
`"updated"`) or appended nothing (classification `"skipped"`); two entries are
never appended for the same unchanged pair. -/
theorem update_price_history_idempotent
    (doc : Option PriceDoc) (pid : String)
    (oos qty lu oos' qty' lu' op sp t₁ t₂ : Option String) :
    (update_price_history (some (update_price_history doc pid oos qty lu
        ⟨op, sp, t₁⟩).1) pid oos' qty' lu' ⟨op, sp, t₂⟩).2 = "skipped" ∧
    (update_price_history (some (update_price_history doc pid oos qty lu
        ⟨op, sp, t₁⟩).1) pid oos' qty' lu' ⟨op, sp, t₂⟩).1.price_history =
      (update_price_history doc pid oos qty lu ⟨op, sp, t₁⟩).1.price_history ∧
    (((update_price_history doc pid oos qty lu ⟨op, sp, t₁⟩).2 = "updated" ∧
        (update_price_history doc pid oos qty lu ⟨op, sp, t₁⟩).1.price_history =
          storedHistory doc ++ [⟨op, sp, t₁⟩]) ∨
      ((update_price_history doc pid oos qty lu ⟨op, sp, t₁⟩).2 = "skipped" ∧
        (update_price_history doc pid oos qty lu ⟨op, sp, t₁⟩).1.price_history =
          storedHistory doc)) := by
  have happend : ∀ (d : PriceDoc), d.price_history.getLast? = some ⟨op, sp, t₁⟩ →
      update_price_history (some d) pid oos' qty' lu' ⟨op, sp, t₂⟩ =
        (⟨pid, oos', qty', lu', d.price_history⟩, "skipped") := by
    intro d hd
    exact uph_of_last_eq (some d) pid oos' qty' lu' ⟨op, sp, t₂⟩ ⟨op, sp, t₁⟩ hd rfl rfl
  cases h : (storedHistory doc).getLast? with
  | none =>
    have hnil : storedHistory doc = [] := by
      cases hs : storedHistory doc with
      | nil => rfl
      | cons a l => rw [hs] at h; simp [List.getLast?] at h
    have h1 := uph_of_nil doc pid oos qty lu ⟨op, sp, t₁⟩ hnil
    rw [h1]
    have h2 := happend ⟨pid, oos, qty, lu, storedHistory doc ++ [⟨op, sp, t₁⟩]⟩
      (by exact List.getLast?_concat (storedHistory doc))
    rw [h2]
    exact ⟨rfl, rfl, Or.inl ⟨rfl, rfl⟩⟩
  | some last =>
    by_cases hc : last.original_price = op ∧ last.selling_price = sp
    · have h1 := uph_of_last_eq doc pid oos qty lu ⟨op, sp, t₁⟩ last h hc.1 hc.2
      rw [h1]
      have h2 := uph_of_last_eq (some ⟨pid, oos, qty, lu, storedHistory doc⟩)
        pid oos' qty' lu' ⟨op, sp, t₂⟩ last (by exact h) hc.1 hc.2
      rw [h2]
      exact ⟨rfl, rfl, Or.inr ⟨rfl, rfl⟩⟩
    · have h1 := uph_of_last_ne doc pid oos qty lu ⟨op, sp, t₁⟩ last h hc
      rw [h1]
      have h2 := happend ⟨pid, oos, qty, lu, storedHistory doc ++ [⟨op, sp, t₁⟩]⟩
        (by exact List.getLast?_concat (storedHistory doc))
      rw [h2]
      exact ⟨rfl, rfl, Or.inl ⟨rfl, rfl⟩⟩

/-- Loop of `_sleep_with_cancel` (`emart_json.py` lines 80-87) over exact
rational arithmetic.  `ev k` is the value the cancellation event shows at its
`k`-th evaluation inside this call.  The result is the list of individual
`time.sleep` durations performed, paired with the number of event evaluations
made.  `fuel` is a structural-termination bound only: the loop body decreases
`remain` by at least `step > 0` per round, so any fuel of at least
`⌊remain / step⌋ + 1` rounds is never exhausted. -/
def sleepAux (ev : Nat → Bool) (step : ℚ) : Nat → ℚ → Nat → List ℚ × Nat
  | 0, _, _ => ([], 0)
  | fuel + 1, remain, k =>
    if 0 < remain then
      if ev k then ([], 1)
      else
        let t := min step remain
        let r := sleepAux ev step fuel (remain - t) (k + 1)
        (t :: r.1, r.2 + 1)
    else ([], 0)

/-- Fuel that suffices for `sleepAux` starting from `remain = total_sec`. -/
def sleepFuel (total_sec step : ℚ) : Nat :=
  ((total_sec / step).floor + 1).toNat + 1

/-- Embedding of `_sleep_with_cancel` (`emart_json.py` lines 76-87): the list
of individual sleep durations the call performs.  The step size is
`max(0.01, min(tick, total_sec))` exactly as in the source. -/
def _sleep_with_cancel (total_sec : ℚ) (ev : Nat → Bool) (tick : ℚ) : List ℚ :=
  if total_sec ≤ 0 then []
  else
    (sleepAux ev (max (1/100) (min tick total_sec))
      (sleepFuel total_sec (max (1/100) (min tick total_sec))) total_sec 0).1

/-- Number of cancellation-event evaluations a `_sleep_with_cancel` call
performs; used to thread the event stream through the page loop. -/
def sleepChecks (total_sec : ℚ) (ev : Nat → Bool) (tick : ℚ) : Nat :=
  if total_sec ≤ 0 then 0
  else
    (sleepAux ev (max (1/100) (min tick total_sec))
      (sleepFuel total_sec (max (1/100) (min tick total_sec))) total_sec 0).2

/-- Helper: every sleep duration emitted by the loop is at most the step. -/
theorem sleepAux_le (ev : Nat → Bool) (step : ℚ) :
    ∀ (fuel : Nat) (remain : ℚ) (k : Nat) (t : ℚ),
      t ∈ (sleepAux ev step fuel remain k).1 → t ≤ step := by
  intro fuel
  induction fuel with
  | zero => intro remain k t ht; simp [sleepAux] at ht
  | succ n ih =>
    intro remain k t ht
    simp only [sleepAux] at ht
    by_cases h0 : 0 < remain
    · simp only [h0, if_true] at ht
      by_cases hev : ev k
      · simp [hev] at ht
      · simp only [hev, if_false, Bool.false_eq_true, List.mem_cons] at ht
        rcases ht with h | h
        · rw [h]; exact min_le_left _ _
        · exact ih _ _ _ h
    · simp [h0] at ht

/-- Helper: the event is consulted, and found unset, right before every
individual sleep step the loop performs. -/
theorem sleepAux_checked (ev : Nat → Bool) (step : ℚ) :
    ∀ (fuel : Nat) (remain : ℚ) (k i : Nat),
      i < (sleepAux ev step fuel remain k).1.length → ev (k + i) = false := by
  intro fuel
  induction fuel with
  | zero => intro remain k i hi; simp [sleepAux] at hi
  | succ n ih =>
    intro remain k i hi
    simp only [sleepAux] at hi
    by_cases h0 : 0 < remain
    · simp only [h0, if_true] at hi
      by_cases hev : ev k
      · simp [hev] at hi
      · simp only [hev, Bool.false_eq_true, if_false, List.length_cons] at hi
        cases i with
        | zero => simpa using Bool.of_not_eq_true hev
        | succ j =>
          have := ih (remain - min step remain) (k + 1) j (by omega)
          simpa [Nat.add_comm, Nat.add_assoc, Nat.add_left_comm] using this
    · simp [h0] at hi

/-- C9: properties of the chunked inter-page sleep `_sleep_with_cancel` with
total duration `D = total_sec` and tick size `T = tick`: a call with `D ≤ 0`
performs no sleep at all; no individual sleep step exceeds
`max(0.01, min(T, D))`; the cancellation token is re-evaluated before every
individual sleep step (and found unset, else the step would not happen); and
once the token is set — for a monotone token that becomes set by its `N`-th
evaluation — at most `N` sleep steps happen in total, so at most one tick of
sleeping can follow the signal, never the remainder of `D`. -/
theorem sleep_with_cancel_chunked (total_sec tick : ℚ) (ev : Nat → Bool) (N : Nat) :
    (total_sec ≤ 0 → _sleep_with_cancel total_sec ev tick = []) ∧
    (∀ t ∈ _sleep_with_cancel total_sec ev tick, t ≤ max (1/100) (min tick total_sec)) ∧
    (∀ i, i < (_sleep_with_cancel total_sec ev tick).length → ev i = false) ∧
    ((∀ n, ev n = true → ev (n + 1) = true) → ev N = true →
      (_sleep_with_cancel total_sec ev tick).length ≤ N) := by
  refine ⟨?_, ?_, ?_, ?_⟩
  · intro h
    simp [_sleep_with_cancel, h]
  · intro t ht
    by_cases h : total_sec ≤ 0
    · simp [_sleep_with_cancel, h] at ht
    · simp only [_sleep_with_cancel, h, if_false] at ht
      exact sleepAux_le ev _ _ _ _ _ ht
  · intro i hi
    by_cases h : total_sec ≤ 0
    · simp [_sleep_with_cancel, h] at hi
    · simp only [_sleep_with_cancel, h, if_false] at hi
      simpa using sleepAux_checked ev _ _ _ 0 i hi
  · intro hmono hN
    by_contra hlen
    push_neg at hlen
    have hfalse : ev N = false := by
      by_cases h : total_sec ≤ 0
      · simp [_sleep_with_cancel, h] at hlen
      · simp only [_sleep_with_cancel, h, if_false] at hlen ⊢
        simpa using sleepAux_checked ev _ _ _ 0 N hlen
    rw [hN] at hfalse
    exact Bool.noConfusion hfalse

/-- Witness for C9: a sleep of 0.35 s with tick 0.1 and an event that becomes
set at its second evaluation. -/
theorem sleep_with_cancel_chunked_witness :
    ((35/100 : ℚ) ≤ 0 → _sleep_with_cancel (35/100) (fun n => decide (2 ≤ n)) (1/10) = []) ∧
    (∀ t ∈ _sleep_with_cancel (35/100 : ℚ) (fun n => decide (2 ≤ n)) (1/10),
      t ≤ max (1/100) (min (1/10) (35/100))) ∧
    (∀ i, i < (_sleep_with_cancel (35/100 : ℚ) (fun n => decide (2 ≤ n)) (1/10)).length →
      (fun n => decide (2 ≤ n)) i = false) ∧
    ((∀ n, (fun n => decide (2 ≤ n)) n = true → (fun n => decide (2 ≤ n)) (n + 1) = true) →
      (fun n => decide (2 ≤ n)) 2 = true →
      (_sleep_with_cancel (35/100 : ℚ) (fun n => decide (2 ≤ n)) (1/10)).length ≤ 2) := by
  exact sleep_with_cancel_chunked (35/100) (1/10) (fun n => decide (2 ≤ n)) 2

/-- Record extracted from one listing item by `scrape_emart_category_page`;
only the two fields the page loop itself consults for dedup
(`emart_json.py` lines 365-366) are modelled, the rest of the dict rides
along unobserved. -/
structure Item where
  id : String
  product_address : String
deriving DecidableEq, Repr

/-- Result of fetching and parsing one category page: the records
`scrape_emart_category_page` extracts and the next-page signal
`_has_next_page_by_dom` reads off the DOM (`none` = undecidable). -/
structure Page where
  items : List Item
  hasNext : Option Bool
deriving DecidableEq, Repr

/-- Exit cause of the page loop of `run_scraper` (`emart_json.py`
lines 328-405): the five `break` paths plus the raised-exception path that
jumps to the handlers at lines 420-423. -/
inductive Reason
  | cancelled
  | endPage
  | pageCap
  | fetchError
  | emptyPages
  | noNext
deriving DecidableEq, Repr

/-- State of one category crawl: the accumulated buffer, the in-run seen-id
set (modelled as a list), the consecutive-empty counter, the loop variables,
the number of event evaluations and page fetches so far, and the current
content of `result_json/<category>.json` (written by the partial and the
final `json.dump`; `none` = nothing written yet). -/
structure CState where
  collected : List Item
  seen_ids : List String
  consecutive_empty : Nat
  page_num : Nat
  visited_pages : Nat
  checks : Nat
  fetches : Nat
  fileContent : Option (List Item)
deriving DecidableEq, Repr

/-- Outcome of one category crawl: final state and exit cause. -/
structure CrawlResult where
  final : CState
  reason : Reason
deriving DecidableEq, Repr

/-- Dedup block of the page loop (`emart_json.py` lines 362-371): walk the
extracted records; a record whose non-empty id was already seen is dropped,
a record with a fresh non-empty id is appended and its id recorded, a record
with an empty id is always appended.  Returns the page's new items and the
updated seen-id set. -/
def dedupNewItems : List String → List Item → List Item × List String
  | seen_ids, [] => ([], seen_ids)
  | seen_ids, it :: rest =>
    if it.id ≠ "" ∧ it.id ∈ seen_ids then dedupNewItems seen_ids rest
    else
      let seen' := if it.id ≠ "" then it.id :: seen_ids else seen_ids
      let r := dedupNewItems seen' rest
      (it :: r.1, r.2)

/-- End-page guard (`emart_json.py` line 334): `end_page is not None and
page_num > end_page`. -/
def endCheck (end_page : Option Nat) (page_num : Nat) : Bool :=
  match end_page with
  | some e => decide (e < page_num)
  | none => false

/-- Leaving the page loop over a `break`: the final `json.dump` at
`emart_json.py` lines 408-410 writes the accumulated buffer to the
category's snapshot file. -/
def finishSave (s : CState) (r : Reason) : CrawlResult :=
  ⟨{s with fileContent := some s.collected}, r⟩

/-- Tail of a continuing loop iteration (`emart_json.py` lines 397-405):
count the visited page, optionally write the partial save, advance the page
number and run the chunked inter-page sleep (which consumes cancellation
checks but never breaks the page loop itself). -/
def advance (stop : Nat → Bool) (save_every : Nat) (page_delay : ℚ) (s : CState) : CState :=
  let s₇ : CState := {s with visited_pages := s.visited_pages + 1}
  let s₈ : CState :=
    if 0 < save_every ∧ s₇.visited_pages % save_every = 0 then
      {s₇ with fileContent := some s₇.collected}
    else s₇
  {s₈ with
    page_num := s₈.page_num + 1,
    checks := s₈.checks + sleepChecks page_delay (fun i => stop (s₈.checks + i)) (1/10)}

/-- Page loop of `run_scraper` for one category (`emart_json.py`
lines 328-423).  `stop k` is the cancellation event at its `k`-th evaluation
within this category; `fetch n` models `session.get` plus
`raise_for_status` plus extraction for page number `n` (`.error` = a raised
`RequestException` or scraping error, which skips the final save and lands
in the handlers at lines 420-423).  `fuel` only bounds the recursion: the
loop body already breaks when `visited_pages` reaches `page_cap`, so any
fuel above `page_cap` is never exhausted; the fuel-0 fallback returns the
same page-cap exit. -/
def pageLoop (stop : Nat → Bool) (fetch : Nat → Except Unit Page) (end_page : Option Nat)
    (page_cap : Nat) (empty_page_stop : Nat) (save_every : Nat) (page_delay : ℚ) :
    Nat → CState → CrawlResult
  | 0, s => finishSave s .pageCap
  | fuel + 1, s =>
    if stop s.checks then finishSave {s with checks := s.checks + 1} .cancelled
    else
      let s₁ : CState := {s with checks := s.checks + 1}
      if endCheck end_page s₁.page_num then finishSave s₁ .endPage
      else if page_cap ≤ s₁.visited_pages then finishSave s₁ .pageCap
      else if stop s₁.checks then finishSave {s₁ with checks := s₁.checks + 1} .cancelled
      else
        let s₂ : CState := {s₁ with checks := s₁.checks + 1}
        match fetch s₂.page_num with
        | .error _ => ⟨{s₂ with fetches := s₂.fetches + 1}, .fetchError⟩
        | .ok page =>
          let s₃ : CState := {s₂ with fetches := s₂.fetches + 1}
          if stop s₃.checks then finishSave {s₃ with checks := s₃.checks + 1} .cancelled
          else
            let s₄ : CState := {s₃ with checks := s₃.checks + 1}
            let d := dedupNewItems s₄.seen_ids page.items
            let s₅ : CState := {s₄ with
              collected := s₄.collected ++ d.1,
              seen_ids := d.2,
              consecutive_empty :=
                if d.1.length = 0 then s₄.consecutive_empty + 1 else 0}
            if 0 < empty_page_stop ∧ empty_page_stop ≤ s₅.consecutive_empty then
              finishSave s₅ .emptyPages
            else if page.hasNext = some false then finishSave s₅ .noNext
            else
              pageLoop stop fetch end_page page_cap empty_page_stop save_every page_delay
                fuel (advance stop save_every page_delay s₅)

/-- One category crawl of `run_scraper`: the page loop from a fresh buffer,
seen-id set, counter and loop variables (`emart_json.py` lines 320-326). -/
def crawlCategory (stop : Nat → Bool) (fetch : Nat → Except Unit Page) (end_page : Option Nat)
    (page_cap empty_page_stop save_every : Nat) (page_delay : ℚ) (start_page : Nat) :
    CrawlResult :=
  pageLoop stop fetch end_page page_cap empty_page_stop save_every page_delay
    (page_cap + 1) ⟨[], [], 0, start_page, 0, 0, 0, none⟩

/-- Helper: the loop tail `advance` keeps the fetch count. -/
@[simp] theorem advance_fetches (stop : Nat → Bool) (save_every : Nat) (page_delay : ℚ)
    (s : CState) : (advance stop save_every page_delay s).fetches = s.fetches := by
  simp only [advance]
  split <;> rfl

/-- Helper: the loop tail `advance` counts one visited page. -/
@[simp] theorem advance_visited (stop : Nat → Bool) (save_every : Nat) (page_delay : ℚ)
    (s : CState) :
    (advance stop save_every page_delay s).visited_pages = s.visited_pages + 1 := by
  simp only [advance]
  split <;> rfl

/-- Helper: the loop tail `advance` keeps the collected buffer. -/
@[simp] theorem advance_collected (stop : Nat → Bool) (save_every : Nat) (page_delay : ℚ)
    (s : CState) : (advance stop save_every page_delay s).collected = s.collected := by
  simp only [advance]
  split <;> rfl

/-- Helper: the loop tail `advance` keeps the seen-id set. -/
@[simp] theorem advance_seen (stop : Nat → Bool) (save_every : Nat) (page_delay : ℚ)
    (s : CState) : (advance stop save_every page_delay s).seen_ids = s.seen_ids := by
  simp only [advance]
  split <;> rfl

/-- Helper: the loop tail `advance` keeps the consecutive-empty counter. -/
@[simp] theorem advance_consec (stop : Nat → Bool) (save_every : Nat) (page_delay : ℚ)
    (s : CState) :
    (advance stop save_every page_delay s).consecutive_empty = s.consecutive_empty := by
  simp only [advance]
  split <;> rfl

/-- Helper for C5: if the fetch count equals the visited-page count at loop
entry (the loop body counts a visited page exactly for each completed
iteration, each of which fetched once) and the latter is within the cap,
then the loop never fetches more than `page_cap` pages in total. -/
theorem pageLoop_fetches_le (stop : Nat → Bool) (fetch : Nat → Except Unit Page)
    (end_page : Option Nat) (page_cap empty_page_stop save_every : Nat) (page_delay : ℚ) :
    ∀ (fuel : Nat) (s : CState), s.fetches = s.visited_pages → s.visited_pages ≤ page_cap →
      (pageLoop stop fetch end_page page_cap empty_page_stop save_every page_delay
        fuel s).final.fetches ≤ page_cap := by
  intro fuel
  induction fuel with
  | zero =>
    intro s h1 h2
    show s.fetches ≤ page_cap
    omega
  | succ n ih =>
    intro s h1 h2
    simp only [pageLoop]
    repeat' split
    all_goals
      first
      | exact ih _ (by simp only [advance_fetches, advance_visited]; omega)
          (by simp only [advance_visited]; omega)
      | (show s.fetches ≤ page_cap; omega)
      | (show s.fetches + 1 ≤ page_cap; omega)

/-- Helper for C2: every `break` exit of the page loop runs the final
`json.dump`, so the snapshot file holds exactly the accumulated buffer; the
only exit that skips it is the raised fetch/extraction error. -/
theorem pageLoop_saves_on_break (stop : Nat → Bool) (fetch : Nat → Except Unit Page)
    (end_page : Option Nat) (page_cap empty_page_stop save_every : Nat) (page_delay : ℚ) :
    ∀ (fuel : Nat) (s : CState),
      (pageLoop stop fetch end_page page_cap empty_page_stop save_every page_delay
        fuel s).reason = .fetchError ∨
      (pageLoop stop fetch end_page page_cap empty_page_stop save_every page_delay
        fuel s).final.fileContent =
        some (pageLoop stop fetch end_page page_cap empty_page_stop save_every page_delay
          fuel s).final.collected := by
  intro fuel
  induction fuel with
  | zero =>
    intro s
    exact Or.inr rfl
  | succ n ih =>
    intro s
    simp only [pageLoop]
    repeat' split
    all_goals
      first
      | exact ih _
      | exact Or.inl rfl
      | exact Or.inr rfl

/-- C5: for every crawl of one category with page cap `N ≥ 1`, at most `N`
pages are fetched, whatever the pages hold, whatever next-page signal the
DOM shows, and whether or not an end page is set: the page loop stops no
later than after the `N`-th fetch. -/
theorem run_scraper_page_cap_bound (stop : Nat → Bool) (fetch : Nat → Except Unit Page)
    (end_page : Option Nat) (page_cap empty_page_stop save_every : Nat) (page_delay : ℚ)
    (start_page : Nat) (_hcap : 1 ≤ page_cap) :
    (crawlCategory stop fetch end_page page_cap empty_page_stop save_every page_delay
      start_page).final.fetches ≤ page_cap := by
  exact pageLoop_fetches_le stop fetch end_page page_cap empty_page_stop save_every
    page_delay (page_cap + 1) _ rfl (Nat.zero_le _)

/-- Cancellation stream that is never set. -/
def neverStop : Nat → Bool := fun _ => false

/-- Concrete record used by the error-path counterexample. -/
def itemA : Item := ⟨"a1", "https://emart.ssg.com/item?itemId=a1"⟩

/-- Fetch oracle: page 1 yields one record, every later page raises a
request error. -/
def errFetch : Nat → Except Unit Page
  | 1 => .ok ⟨[itemA], none⟩
  | _ => .error ()

/-- Witness for C5: with page cap 1 the crawl against the erroring oracle
fetches at most one page. -/
theorem run_scraper_page_cap_bound_witness :
    1 ≤ 1 ∧
    (crawlCategory neverStop errFetch none 1 2 0 0 1).final.fetches ≤ 1 :=
  ⟨by decide,
    run_scraper_page_cap_bound neverStop errFetch none 1 2 0 0 1 (by decide)⟩

/-- Counterexample to C2 as stated: a fetch error on page 2, after page 1
already yielded a record, exits the loop without writing the snapshot file —
the collected buffer is discarded, refuting the claim that every exit path
writes the accumulated buffer. -/
theorem run_scraper_fetch_error_discards_buffer :
    (crawlCategory neverStop errFetch none 500 2 0 0 1).reason = .fetchError ∧
    (crawlCategory neverStop errFetch none 500 2 0 0 1).final.collected = [itemA] ∧
    (crawlCategory neverStop errFetch none 500 2 0 0 1).final.fileContent = none := by
  refine ⟨by decide, by decide, by decide⟩

/-- C2 as amended: on every `break` exit of the page loop — normal
completion via the no-next-page signal, cancellation, end page reached,
page cap reached, and the consecutive-empty-pages stop — the accumulated
deduplicated buffer is written to the category's snapshot file; only the
raised fetch/extraction error exit skips the final write (its handler only
logs), discarding the buffer collected since the last partial save. -/
theorem run_scraper_saves_buffer_unless_fetch_error (stop : Nat → Bool)
    (fetch : Nat → Except Unit Page) (end_page : Option Nat)
    (page_cap empty_page_stop save_every : Nat) (page_delay : ℚ) (start_page : Nat)
    (h : (crawlCategory stop fetch end_page page_cap empty_page_stop save_every
      page_delay start_page).reason ≠ .fetchError) :
    (crawlCategory stop fetch end_page page_cap empty_page_stop save_every page_delay
      start_page).final.fileContent =
      some (crawlCategory stop fetch end_page page_cap empty_page_stop save_every
        page_delay start_page).final.collected := by
  rcases pageLoop_saves_on_break stop fetch end_page page_cap empty_page_stop save_every
    page_delay (page_cap + 1) ⟨[], [], 0, start_page, 0, 0, 0, none⟩ with hl | hr
  · exact absurd hl h
  · exact hr

/-- Witness for C2 (amended): a crawl that ends on the page-cap exit has its
buffer written to the snapshot file. -/
theorem run_scraper_saves_buffer_unless_fetch_error_witness :
    (crawlCategory neverStop errFetch none 1 2 0 0 1).reason ≠ .fetchError ∧
    (crawlCategory neverStop errFetch none 1 2 0 0 1).final.fileContent =
      some (crawlCategory neverStop errFetch none 1 2 0 0 1).final.collected :=
  ⟨by decide,
    run_scraper_saves_buffer_unless_fetch_error neverStop errFetch none 1 2 0 0 1
      (by decide)⟩

/-- Helper: the dedup block only drops records, it never reorders or invents
them — its output is a sublist of the page's extracted records. -/
theorem dedupNewItems_sublist : ∀ (seen : List String) (items : List Item),
    (dedupNewItems seen items).1.Sublist items := by
  intro seen items
  induction items generalizing seen with
  | nil => simp [dedupNewItems]
  | cons it rest ih =>
    simp only [dedupNewItems]
    split
    · exact (ih seen).cons it
    · exact (ih _).cons₂ it

/-- Helper: the seen-id set only grows across the dedup block. -/
theorem dedupNewItems_seen_mono : ∀ (seen : List String) (items : List Item) (x : String),
    x ∈ seen → x ∈ (dedupNewItems seen items).2 := by
  intro seen items
  induction items generalizing seen with
  | nil => intro x hx; simpa [dedupNewItems] using hx
  | cons it rest ih =>
    intro x hx
    simp only [dedupNewItems]
    split
    · exact ih seen x hx
    · apply ih
      split
      · exact List.mem_cons_of_mem _ hx
      · exact hx

/-- Helper: a record kept by the dedup block with a non-empty id was not in
the seen-id set the block started from. -/
theorem dedupNewItems_out_fresh : ∀ (seen : List String) (items : List Item) (a : Item),
    a ∈ (dedupNewItems seen items).1 → a.id ≠ "" → a.id ∉ seen := by
  intro seen items
  induction items generalizing seen with
  | nil => intro a ha; simp [dedupNewItems] at ha
  | cons it rest ih =>
    intro a ha hne
    simp only [dedupNewItems] at ha
    revert ha
    split
    · intro ha
      exact ih seen a ha hne
    · intro ha
      rename_i hcond
      rcases List.mem_cons.mp ha with heq | htail
      · subst heq
        intro hmem
        exact hcond ⟨hne, hmem⟩
      · have := ih _ a htail hne
        revert this
        split
        · intro hns hmem
          exact hns (List.mem_cons_of_mem _ hmem)
        · exact fun hns => hns

/-- Helper: when the sought non-empty id is already in the seen-id set, the
dedup block emits no record carrying it — such records are dropped, not
re-added. -/
theorem dedupNewItems_drop_seen (seen : List String) (items : List Item) (pid : String)
    (hne : pid ≠ "") (hmem : pid ∈ seen) :
    (dedupNewItems seen items).1.filter (fun x => x.id = pid) = [] := by
  rw [List.filter_eq_nil_iff]
  intro a ha
  simp only [decide_eq_true_eq]
  intro heq
  exact dedupNewItems_out_fresh seen items a ha (heq ▸ hne) (heq ▸ hmem)

/-- Helper: the dedup block emits at most one record per non-empty id. -/
theorem dedupNewItems_count_le_one : ∀ (seen : List String) (items : List Item)
    (pid : String), pid ≠ "" →
    ((dedupNewItems seen items).1.filter (fun x => x.id = pid)).length ≤ 1 := by
  intro seen items
  induction items generalizing seen with
  | nil => intro pid _; simp [dedupNewItems]
  | cons it rest ih =>
    intro pid hne
    simp only [dedupNewItems]
    split
    · exact ih seen pid hne
    · by_cases hid : it.id = pid
      · have hne' : it.id ≠ "" := by rw [hid]; exact hne
        rw [if_pos hne']
        have htail : ((dedupNewItems (it.id :: seen) rest).1.filter
            (fun x => x.id = pid)) = [] := by
          refine dedupNewItems_drop_seen _ rest pid hne ?_
          rw [hid]
          exact List.mem_cons_self _ _
        rw [List.filter_cons,
          if_pos (show (decide (it.id = pid)) = true by simp [hid]), htail]
        simp
      · rw [List.filter_cons,
          if_neg (show ¬((decide (it.id = pid)) = true) by simp [hid])]
        exact ih _ pid hne

/-- Helper: records with an empty id are never deduplicated — the dedup block
keeps every one of them. -/
theorem dedupNewItems_keeps_empty_ids : ∀ (seen : List String) (items : List Item),
    (dedupNewItems seen items).1.filter (fun x => x.id = "") =
      items.filter (fun x => x.id = "") := by
  intro seen items
  induction items generalizing seen with
  | nil => simp [dedupNewItems]
  | cons it rest ih =>
    simp only [dedupNewItems]
    split
    · rename_i hcond
      have hid : ¬(it.id = "") := hcond.1
      rw [List.filter_cons, if_neg (show ¬((decide (it.id = "")) = true) by simp [hid])]
      exact ih seen
    · by_cases hid : it.id = ""
      · rw [if_neg (show ¬(it.id ≠ "") by simp [hid])]
        rw [List.filter_cons, List.filter_cons,
          if_pos (show (decide (it.id = "")) = true by simp [hid]),
          if_pos (show (decide (it.id = "")) = true by simp [hid])]
        exact congrArg (it :: ·) (ih seen)
      · rw [if_pos (show it.id ≠ "" from hid)]
        rw [List.filter_cons, List.filter_cons,
          if_neg (show ¬((decide (it.id = "")) = true) by simp [hid]),
          if_neg (show ¬((decide (it.id = "")) = true) by simp [hid])]
        exact ih _

/-- Helper: the first record of a page carrying a fresh non-empty id is kept
by the dedup block — the buffer order is first-seen order. -/
theorem dedupNewItems_keeps_first : ∀ (seen : List String) (items : List Item)
    (pid : String) (it : Item), pid ≠ "" → pid ∉ seen →
    items.find? (fun x => x.id = pid) = some it → it ∈ (dedupNewItems seen items).1 := by
  intro seen items
  induction items generalizing seen with
  | nil => intro pid it _ _ hfind; simp [List.find?] at hfind
  | cons a rest ih =>
    intro pid it hne hnmem hfind
    by_cases hid : a.id = pid
    · have heq : a = it := by simpa [List.find?_cons, hid] using hfind
      subst heq
      simp only [dedupNewItems]
      rw [if_neg (show ¬(a.id ≠ "" ∧ a.id ∈ seen) by
        intro hc
        exact hnmem (hid ▸ hc.2))]
      exact List.mem_cons_self _ _
    · have hfind' : rest.find? (fun x => x.id = pid) = some it := by
        simpa [List.find?_cons, hid] using hfind
      simp only [dedupNewItems]
      split
      · exact ih seen pid it hne hnmem hfind'
      · refine List.mem_cons_of_mem _ (ih _ pid it hne ?_ hfind')
        split
        · intro hc
          rcases List.mem_cons.mp hc with h | h
          · exact hid h.symm
          · exact hnmem h
        · exact hnmem

/-- Helper: a record kept by the dedup block with a non-empty id is in the
final seen-id set. -/
theorem dedupNewItems_out_subset_seen : ∀ (seen : List String) (items : List Item)
    (a : Item), a ∈ (dedupNewItems seen items).1 → a.id ≠ "" →
    a.id ∈ (dedupNewItems seen items).2 := by
  intro seen items
  induction items generalizing seen with
  | nil => intro a ha; simp [dedupNewItems] at ha
  | cons it rest ih =>
    intro a ha hne
    simp only [dedupNewItems] at ha ⊢
    revert ha
    split
    · exact fun ha => ih seen a ha hne
    · intro ha
      rcases List.mem_cons.mp ha with heq | htail
      · subst heq
        apply dedupNewItems_seen_mono
        rw [if_pos hne]
        exact List.mem_cons_self _ _
      · exact ih _ a htail hne

/-- Invariant of the page loop: every non-empty product id occurs at most
once in the buffer, and ids absent from the seen-id set do not occur at
all. -/
def NodupBuffer (collected : List Item) (seen : List String) : Prop :=
  ∀ pid : String, pid ≠ "" →
    ((collected.filter fun x => x.id = pid).length ≤ 1 ∧
      (pid ∉ seen → (collected.filter fun x => x.id = pid).length = 0))

/-- Helper: extending the buffer by one deduplicated page preserves the
invariant. -/
theorem nodup_extend (collected : List Item) (seen : List String) (items : List Item)
    (h : NodupBuffer collected seen) :
    NodupBuffer (collected ++ (dedupNewItems seen items).1)
      (dedupNewItems seen items).2 := by
  intro pid hne
  rcases h pid hne with ⟨hle, hzero⟩
  rw [List.filter_append, List.length_append]
  by_cases hmem : pid ∈ seen
  · rw [dedupNewItems_drop_seen seen items pid hne hmem]
    refine ⟨by simpa using hle, fun hns => absurd (dedupNewItems_seen_mono _ _ _ hmem) hns⟩
  · rw [hzero hmem]
    refine ⟨by simpa using dedupNewItems_count_le_one seen items pid hne, fun hns => ?_⟩
    have : (dedupNewItems seen items).1.filter (fun x => x.id = pid) = [] := by
      rw [List.filter_eq_nil_iff]
      intro a ha
      simp only [decide_eq_true_eq]
      intro heq
      exact hns (heq ▸ dedupNewItems_out_subset_seen seen items a ha (heq ▸ hne))
    rw [this]
    rfl

/-- Helper: the page loop preserves the no-duplicate invariant. -/
theorem pageLoop_nodup (stop : Nat → Bool) (fetch : Nat → Except Unit Page)
    (end_page : Option Nat) (page_cap empty_page_stop save_every : Nat) (page_delay : ℚ) :
    ∀ (fuel : Nat) (s : CState), NodupBuffer s.collected s.seen_ids →
      NodupBuffer
        (pageLoop stop fetch end_page page_cap empty_page_stop save_every page_delay
          fuel s).final.collected
        (pageLoop stop fetch end_page page_cap empty_page_stop save_every page_delay
          fuel s).final.seen_ids := by
  intro fuel
  induction fuel with
  | zero => intro s h; exact h
  | succ n ih =>
    intro s h
    simp only [pageLoop]
    repeat' split
    all_goals
      first
      | exact h
      | exact nodup_extend s.collected s.seen_ids _ h
      | (refine ih _ ?_
         simp only [advance_collected, advance_seen]
         exact nodup_extend s.collected s.seen_ids _ h)

/-- C4: for every crawl over pages whose extracted records may repeat product
ids, the final buffer holds each non-empty id at most once; the dedup block
never reorders records (its output is a sublist of the page, so the buffer is
in first-seen order), the first record carrying a fresh non-empty id is kept,
a record whose id is already in the in-run seen-id set is dropped and not
re-added, and records with an empty id are never deduplicated. -/
theorem run_scraper_dedup_buffer (stop : Nat → Bool) (fetch : Nat → Except Unit Page)
    (end_page : Option Nat) (page_cap empty_page_stop save_every : Nat) (page_delay : ℚ)
    (start_page : Nat) :
    (∀ pid : String, pid ≠ "" →
      (((crawlCategory stop fetch end_page page_cap empty_page_stop save_every page_delay
        start_page).final.collected.filter fun x => x.id = pid).length ≤ 1)) ∧
    (∀ (seen : List String) (items : List Item),
      (dedupNewItems seen items).1.Sublist items) ∧
    (∀ (seen : List String) (items : List Item) (pid : String), pid ≠ "" → pid ∈ seen →
      (dedupNewItems seen items).1.filter (fun x => x.id = pid) = []) ∧
    (∀ (seen : List String) (items : List Item),
      (dedupNewItems seen items).1.filter (fun x => x.id = "") =
        items.filter (fun x => x.id = "")) ∧
    (∀ (seen : List String) (items : List Item) (pid : String) (it : Item),
      pid ≠ "" → pid ∉ seen → items.find? (fun x => x.id = pid) = some it →
      it ∈ (dedupNewItems seen items).1) := by
  refine ⟨?_, dedupNewItems_sublist, dedupNewItems_drop_seen,
    dedupNewItems_keeps_empty_ids, dedupNewItems_keeps_first⟩
  intro pid hne
  have hinit : NodupBuffer ([] : List Item) ([] : List String) := by
    intro q hq
    simp
  exact (pageLoop_nodup stop fetch end_page page_cap empty_page_stop save_every page_delay
    (page_cap + 1) ⟨[], [], 0, start_page, 0, 0, 0, none⟩ hinit pid hne).1

/-- Witness for C4: concrete instances of each conjunct — a crawl whose page
repeats an id, and the dedup block on a two-record page. -/
theorem run_scraper_dedup_buffer_witness :
    ((((crawlCategory neverStop errFetch none 500 2 0 0 1).final.collected.filter
      fun x => x.id = "a1").length ≤ 1)) ∧
    ((dedupNewItems ["a1"] [itemA, itemA]).1.Sublist [itemA, itemA]) ∧
    ((dedupNewItems ["a1"] [itemA, itemA]).1.filter (fun x => x.id = "a1") = []) ∧
    ((dedupNewItems ["a1"] [⟨"", "x"⟩, itemA]).1.filter (fun x => x.id = "") =
      [⟨"", "x"⟩, itemA].filter (fun x => x.id = "")) ∧
    (⟨"b2", "y"⟩ ∈ (dedupNewItems ["a1"] [⟨"b2", "y"⟩, itemA]).1) := by
  refine ⟨(run_scraper_dedup_buffer neverStop errFetch none 500 2 0 0 1).1 "a1"
      (by decide),
    (run_scraper_dedup_buffer neverStop errFetch none 500 2 0 0 1).2.1 ["a1"]
      [itemA, itemA],
    (run_scraper_dedup_buffer neverStop errFetch none 500 2 0 0 1).2.2.1 ["a1"]
      [itemA, itemA] "a1" (by decide) (by decide),
    (run_scraper_dedup_buffer neverStop errFetch none 500 2 0 0 1).2.2.2.1 ["a1"]
      [⟨"", "x"⟩, itemA],
    (run_scraper_dedup_buffer neverStop errFetch none 500 2 0 0 1).2.2.2.2 ["a1"]
      [⟨"b2", "y"⟩, itemA] "b2" ⟨"b2", "y"⟩ (by decide) (by decide) (by decide)⟩

/-- First page of the empty-page-threshold scenario: five records. -/
def c6Page1 : Page :=
  ⟨[⟨"c01", ""⟩, ⟨"c02", ""⟩, ⟨"c03", ""⟩, ⟨"c04", ""⟩, ⟨"c05", ""⟩], none⟩

/-- Second page of the empty-page-threshold scenario: five more records. -/
def c6Page2 : Page :=
  ⟨[⟨"c06", ""⟩, ⟨"c07", ""⟩, ⟨"c08", ""⟩, ⟨"c09", ""⟩, ⟨"c10", ""⟩], none⟩

/-- Fetch oracle of the empty-page-threshold scenario: pages yield 5, 5, 0,
0, ... records, with no next-page signal readable from the DOM. -/
def c6Fetch : Nat → Except Unit Page
  | 1 => .ok c6Page1
  | 2 => .ok c6Page2
  | _ => .ok ⟨[], none⟩

/-- C6: with `emptyPageStopThreshold` t > 0 each page whose deduplicated
yield is empty increments the consecutive-empty counter, a page with
non-empty yield resets it to 0, and the loop stops as soon as the counter
reaches t.  Concretely, pages yielding 5, 5, 0, 0 records under t = 2 stop
the crawl right after page 4 with a buffer of exactly 10 records and the
empty-pages exit; and in general one loop iteration that clears all earlier
guards resets the counter on a non-empty yield, increments it on an empty
yield below the threshold, and exits with the empty-pages reason the moment
the incremented counter reaches the threshold. -/
theorem run_scraper_empty_page_stop :
    ((crawlCategory neverStop c6Fetch none 500 2 0 0 1).reason = Reason.emptyPages ∧
      (crawlCategory neverStop c6Fetch none 500 2 0 0 1).final.fetches = 4 ∧
      (crawlCategory neverStop c6Fetch none 500 2 0 0 1).final.collected.length = 10) ∧
    (∀ (stop : Nat → Bool) (fetch : Nat → Except Unit Page) (end_page : Option Nat)
      (page_cap empty_page_stop save_every : Nat) (page_delay : ℚ) (fuel : Nat)
      (s : CState) (page : Page),
      stop s.checks = false →
      endCheck end_page s.page_num = false →
      s.visited_pages < page_cap →
      stop (s.checks + 1) = false →
      fetch s.page_num = Except.ok page →
      stop (s.checks + 2) = false →
      (((dedupNewItems s.seen_ids page.items).1 ≠ [] →
        page.hasNext ≠ some false →
        pageLoop stop fetch end_page page_cap empty_page_stop save_every page_delay
            (fuel + 1) s =
          pageLoop stop fetch end_page page_cap empty_page_stop save_every page_delay
            fuel
            (advance stop save_every page_delay
              {s with
                collected := s.collected ++ (dedupNewItems s.seen_ids page.items).1,
                seen_ids := (dedupNewItems s.seen_ids page.items).2,
                consecutive_empty := 0,
                checks := s.checks + 1 + 1 + 1,
                fetches := s.fetches + 1})) ∧
      ((dedupNewItems s.seen_ids page.items).1 = [] →
        ¬(0 < empty_page_stop ∧ empty_page_stop ≤ s.consecutive_empty + 1) →
        page.hasNext ≠ some false →
        pageLoop stop fetch end_page page_cap empty_page_stop save_every page_delay
            (fuel + 1) s =
          pageLoop stop fetch end_page page_cap empty_page_stop save_every page_delay
            fuel
            (advance stop save_every page_delay
              {s with
                collected := s.collected ++ (dedupNewItems s.seen_ids page.items).1,
                seen_ids := (dedupNewItems s.seen_ids page.items).2,
                consecutive_empty := s.consecutive_empty + 1,
                checks := s.checks + 1 + 1 + 1,
                fetches := s.fetches + 1})) ∧
      ((dedupNewItems s.seen_ids page.items).1 = [] →
        0 < empty_page_stop → empty_page_stop ≤ s.consecutive_empty + 1 →
        pageLoop stop fetch end_page page_cap empty_page_stop save_every page_delay
            (fuel + 1) s =
          finishSave
            {s with
              collected := s.collected ++ (dedupNewItems s.seen_ids page.items).1,
              seen_ids := (dedupNewItems s.seen_ids page.items).2,
              consecutive_empty := s.consecutive_empty + 1,
              checks := s.checks + 1 + 1 + 1,
              fetches := s.fetches + 1}
            Reason.emptyPages))) := by
  refine ⟨⟨by decide, by decide, by decide⟩, ?_⟩
  intro stop fetch end_page page_cap empty_page_stop save_every page_delay fuel s page
    h1 h2 h3 h4 h5 h6
  have h3' : ¬(page_cap ≤ s.visited_pages) := by omega
  refine ⟨?_, ?_, ?_⟩
  · intro hne hnn
    have hlen : ¬((dedupNewItems s.seen_ids page.items).1.length = 0) := by
      simpa [List.length_eq_zero] using hne
    simp [pageLoop, h1, h2, h3', h4, h5, h6, hlen, hnn]
    intro hpos heq
    omega
  · intro hempty hconsec hnn
    simp [pageLoop, h1, h2, h3', h4, h5, h6, hempty, hconsec, hnn]
  · intro hempty ht hle
    simp [pageLoop, h1, h2, h3', h4, h5, h6, hempty, ht, hle]

/-- Witness for C6: the per-iteration characterization applied on concrete
states of the 5,5,0,0 scenario — the first page (non-empty yield, counter
reset), the third page (first empty yield, counter 1 below the threshold)
and the fourth page (second empty yield, threshold 2 reached). -/
theorem run_scraper_empty_page_stop_witness :
    (pageLoop neverStop c6Fetch none 500 2 0 0 501 ⟨[], [], 0, 1, 0, 0, 0, none⟩ =
      pageLoop neverStop c6Fetch none 500 2 0 0 500
        (advance neverStop 0 0
          {(⟨[], [], 0, 1, 0, 0, 0, none⟩ : CState) with
            collected := [] ++ (dedupNewItems [] c6Page1.items).1,
            seen_ids := (dedupNewItems [] c6Page1.items).2,
            consecutive_empty := 0,
            checks := 0 + 1 + 1 + 1,
            fetches := 0 + 1})) ∧
    (pageLoop neverStop c6Fetch none 500 2 0 0 499 ⟨[], [], 0, 3, 2, 6, 2, none⟩ =
      pageLoop neverStop c6Fetch none 500 2 0 0 498
        (advance neverStop 0 0
          {(⟨[], [], 0, 3, 2, 6, 2, none⟩ : CState) with
            collected := [] ++ (dedupNewItems [] (⟨[], none⟩ : Page).items).1,
            seen_ids := (dedupNewItems [] (⟨[], none⟩ : Page).items).2,
            consecutive_empty := 0 + 1,
            checks := 6 + 1 + 1 + 1,
            fetches := 2 + 1})) ∧
    (pageLoop neverStop c6Fetch none 500 2 0 0 498 ⟨[], [], 1, 4, 3, 9, 3, none⟩ =
      finishSave
        {(⟨[], [], 1, 4, 3, 9, 3, none⟩ : CState) with
          collected := [] ++ (dedupNewItems [] (⟨[], none⟩ : Page).items).1,
          seen_ids := (dedupNewItems [] (⟨[], none⟩ : Page).items).2,
          consecutive_empty := 1 + 1,
          checks := 9 + 1 + 1 + 1,
          fetches := 3 + 1}
        Reason.emptyPages) := by
  refine ⟨?_, ?_, ?_⟩
  · exact ((run_scraper_empty_page_stop.2 neverStop c6Fetch none 500 2 0 0 500
      ⟨[], [], 0, 1, 0, 0, 0, none⟩ c6Page1 rfl rfl (by decide) rfl rfl rfl).1
      (by decide) (by decide))
  · exact ((run_scraper_empty_page_stop.2 neverStop c6Fetch none 500 2 0 0 498
      ⟨[], [], 0, 3, 2, 6, 2, none⟩ ⟨[], none⟩ rfl rfl (by decide) rfl rfl rfl).2.1
      (by decide) (by decide) (by decide))
  · exact ((run_scraper_empty_page_stop.2 neverStop c6Fetch none 500 2 0 0 497
      ⟨[], [], 1, 4, 3, 9, 3, none⟩ ⟨[], none⟩ rfl rfl (by decide) rfl rfl rfl).2.2
      (by decide) (by decide) (by decide))

/-- Uploaded JSON record: the keys `upload_json_to_firestore` reads
(source lines 215-289); a key missing from the dict or a JSON null is
`none`; a missing or falsy id is modelled as `""` (both take the same
`continue` branch at line 216-217). -/
structure Product where
  id : String
  category : Option String
  product_name : Option String
  product_address : Option String
  original_price : Option String
  selling_price : Option String
  image_url : Option String
  quantity : Option String
  out_of_stock : Option String
  last_updated : Option String
deriving DecidableEq, Repr

/-- Document of the `emart_product` collection: the fields the uploader
reads and writes (source lines 244-290). -/
structure ProductDoc where
  id : Option String
  category : Option String
  image_url : Option String
  last_updated : Option String
  product_address : Option String
  product_name : Option String
  is_emb : Option String
deriving DecidableEq, Repr

/-- The two Firestore collections, as key-to-document maps. -/
structure Store where
  price : String → Option PriceDoc
  product : String → Option ProductDoc

/-- The five counters of the upload run (source lines 182-186). -/
structure Counters where
  price_updated : Nat
  price_skipped : Nat
  product_new : Nat
  product_updated : Nat
  product_skipped : Nat
deriving DecidableEq, Repr

/-- The counters dict the run returns (source lines 194-200, 298-304 and
339-345): exactly these five keys, in this order. -/
def countersMap (c : Counters) : List (String × Nat) :=
  [("price_updated", c.price_updated), ("price_skipped", c.price_skipped),
    ("product_new", c.product_new), ("product_updated", c.product_updated),
    ("product_skipped", c.product_skipped)]

/-- State threaded through the upload run: the store, the counters, the
number of `_should_stop` evaluations so far (indexing the cancellation
stream), the record index consulted by the failure oracles, and the number
of document reads issued against the two collections. -/
structure USt where
  store : Store
  counters : Counters
  checks : Nat
  ridx : Nat
  reads : Nat

/-- Result dict of `upload_json_to_firestore` plus the run's observable
effects: `counters` is `none` when the returned dict carries no counters
key, `notified` whether `_notify_embedding_server` was called, `deleted`
the snapshot files removed in order, `store` the final collections and
`reads` the document reads issued. -/
structure UploadResult where
  status : String
  message : String
  counters : Option (List (String × Nat))
  notified : Bool
  deleted : List String
  store : Store
  reads : Nat

/-- The `price_info` dict built at source lines 220-224. -/
def priceInfoOf (p : Product) : PriceInfo :=
  ⟨p.original_price, p.selling_price, p.last_updated⟩

/-- Processing of one record (source lines 215-292).  `beacon` selects the
price and/or product paths exactly as the source does; `pf`/`prodf` decide
whether the store raises for this record on the price path (caught inside
`update_price_history`, classified `"error"`, which the caller does not
count) or on the product path (caught and logged at lines 291-292); either
way the loop moves on to the next record.  A raised exception is modelled
as thrown by the initial document read, before any write. -/
def processRecord (beacon : Nat) (pf prodf : Nat → Bool) (p : Product) (s : USt) : USt :=
  if p.id = "" then s
  else
    let s₁ : USt :=
      if beacon = 1 ∨ beacon = 2 then
        if pf s.ridx then {s with reads := s.reads + 1}
        else
          let r := update_price_history (s.store.price p.id) p.id p.out_of_stock
            p.quantity p.last_updated (priceInfoOf p)
          {s with
            store := {s.store with
              price := fun k => if k = p.id then some r.1 else s.store.price k},
            counters :=
              if r.2 = "updated" then
                {s.counters with price_updated := s.counters.price_updated + 1}
              else if r.2 = "skipped" then
                {s.counters with price_skipped := s.counters.price_skipped + 1}
              else s.counters,
            reads := s.reads + 1}
      else s
    let s₂ : USt :=
      if beacon = 1 ∨ beacon = 3 then
        if prodf s₁.ridx then {s₁ with reads := s₁.reads + 1}
        else
          match s₁.store.product p.id with
          | some d =>
            if d.product_name ≠ p.product_name ∨ d.image_url ≠ p.image_url then
              let d' : ProductDoc := {d with
                product_name := p.product_name,
                image_url := p.image_url,
                last_updated := p.last_updated,
                is_emb := some "R"}
              {s₁ with
                store := {s₁.store with
                  product := fun k => if k = p.id then some d' else s₁.store.product k},
                counters := {s₁.counters with
                  product_updated := s₁.counters.product_updated + 1},
                reads := s₁.reads + 1}
            else
              let d' : ProductDoc := {d with last_updated := p.last_updated}
              {s₁ with
                store := {s₁.store with
                  product := fun k => if k = p.id then some d' else s₁.store.product k},
                counters := {s₁.counters with
                  product_skipped := s₁.counters.product_skipped + 1},
                reads := s₁.reads + 1}
          | none =>
            let d' : ProductDoc := ⟨some p.id, p.category, p.image_url, p.last_updated,
              p.product_address, p.product_name, some "R"⟩
            {s₁ with
              store := {s₁.store with
                product := fun k => if k = p.id then some d' else s₁.store.product k},
              counters := {s₁.counters with
                product_new := s₁.counters.product_new + 1},
              reads := s₁.reads + 1}
      else s₁
    {s₂ with ridx := s₂.ridx + 1}

/-- Record loop over one file (source lines 209-292): the cancellation
event is evaluated once before each record; if set, the loop stops mid-file
(the `stopped_in_file` flag is the boolean). -/
def procRecords (beacon : Nat) (stop pf prodf : Nat → Bool) :
    USt → List Product → USt × Bool
  | s, [] => (s, false)
  | s, p :: ps =>
    if stop s.checks then ({s with checks := s.checks + 1}, true)
    else procRecords beacon stop pf prodf
      (processRecord beacon pf prodf p {s with checks := s.checks + 1}) ps

/-- Pure fold of record processing: the state after a prefix of records of
a file when no cancellation fired inside that prefix. -/
def runRecs (beacon : Nat) (pf prodf : Nat → Bool) (s : USt) (l : List Product) : USt :=
  l.foldl (fun st p => processRecord beacon pf prodf p {st with checks := st.checks + 1}) s

/-- File loop of `upload_json_to_firestore` (source lines 188-352): one
cancellation check per file, then the record loop; a mid-file stop returns
immediately with the counters so far and keeps the file, a completed file
is deleted (treated as consumed) before the next file is processed; after
the last file one final check decides between the stopped return and the
success return that notifies the embedding server. -/
def runFiles (beacon : Nat) (stop pf prodf : Nat → Bool) :
    USt → List (String × List Product) → UploadResult
  | s, [] =>
    if stop s.checks then
      { status := "stopped", message := "업로드는 완료/부분완료, 임베딩 호출은 생략",
        counters := some (countersMap s.counters), notified := false, deleted := [],
        store := s.store, reads := s.reads }
    else
      { status := "success", message := "All files uploaded successfully.",
        counters := some (countersMap s.counters), notified := true, deleted := [],
        store := s.store, reads := s.reads }
  | s, (name, records) :: rest =>
    if stop s.checks then
      { status := "stopped", message := "업로드 중단됨(파일 루프)",
        counters := some (countersMap s.counters), notified := false, deleted := [],
        store := s.store, reads := s.reads }
    else
      let r := procRecords beacon stop pf prodf {s with checks := s.checks + 1} records
      if r.2 then
        { status := "stopped",
          message := "업로드 중단됨(파일: " ++ name ++ " 진행 중)",
          counters := some (countersMap r.1.counters), notified := false, deleted := [],
          store := r.1.store, reads := r.1.reads }
      else
        let res := runFiles beacon stop pf prodf r.1 rest
        { res with deleted := name :: res.deleted }

/-- Embedding of `upload_json_to_firestore` (source lines 152-356): the
before-start cancellation check, the beacon derived from the directory
path, the empty-directory warning, and the file loop.  `files` is the
parsed content of the directory's JSON files in `glob` order.
Initialization of the Firebase app is assumed to succeed (its failure
return carries no counters and touches nothing), and `os.remove` is
assumed not to raise. -/
def upload_json_to_firestore (directory_path : String) (stop pf prodf : Nat → Bool)
    (store : Store) (files : List (String × List Product)) : UploadResult :=
  if stop 0 then
    { status := "stopped", message := "작업 시작 전에 중단됨", counters := none,
      notified := false, deleted := [], store := store, reads := 0 }
  else
    let beacon := if directory_path = "result_json" then 1
      else if directory_path = "result_price_json" then 2 else 3
    if files.isEmpty then
      { status := "warning",
        message := "'" ++ directory_path ++ "' 폴더에 JSON 파일이 없습니다.",
        counters := none, notified := false, deleted := [], store := store, reads := 0 }
    else
      runFiles beacon stop pf prodf ⟨store, ⟨0, 0, 0, 0, 0⟩, 1, 0, 0⟩ files

/-- Store with both collections empty. -/
def emptyStore : Store := ⟨fun _ => none, fun _ => none⟩

/-- Failure oracle that never raises. -/
def noFail : Nat → Bool := fun _ => false

/-- A concrete well-formed record. -/
def sampleProduct : Product :=
  ⟨"p1", some "Fruits", some "Apple", some "addr", some "100", some "90",
    some "img", some "1kg", none, some "t0"⟩

/-- C10: when the snapshot directory holds no JSON files the upload run
returns the `"warning"` status with a message naming the directory, issues
no read and no write against either collection, deletes no file, skips the
downstream completion notification, and the returned dict carries no
counters. -/
theorem upload_empty_directory_warning (directory_path : String)
    (stop pf prodf : Nat → Bool) (store : Store) (h : stop 0 = false) :
    (upload_json_to_firestore directory_path stop pf prodf store []).status =
      "warning" ∧
    (upload_json_to_firestore directory_path stop pf prodf store []).message =
      "'" ++ directory_path ++ "' 폴더에 JSON 파일이 없습니다." ∧
    (upload_json_to_firestore directory_path stop pf prodf store []).counters = none ∧
    (upload_json_to_firestore directory_path stop pf prodf store []).notified = false ∧
    (upload_json_to_firestore directory_path stop pf prodf store []).deleted = [] ∧
    (upload_json_to_firestore directory_path stop pf prodf store []).store = store ∧
    (upload_json_to_firestore directory_path stop pf prodf store []).reads = 0 := by
  simp [upload_json_to_firestore, h]

/-- Witness for C10: the empty `result_json` directory with an unset
cancellation flag. -/
theorem upload_empty_directory_warning_witness :
    noFail 0 = false ∧
    (upload_json_to_firestore "result_json" noFail noFail noFail emptyStore []).status =
      "warning" ∧
    (upload_json_to_firestore "result_json" noFail noFail noFail emptyStore []).message =
      "'" ++ "result_json" ++ "' 폴더에 JSON 파일이 없습니다." ∧
    (upload_json_to_firestore "result_json" noFail noFail noFail emptyStore
      []).counters = none ∧
    (upload_json_to_firestore "result_json" noFail noFail noFail emptyStore
      []).notified = false ∧
    (upload_json_to_firestore "result_json" noFail noFail noFail emptyStore
      []).reads = 0 := by
  have h := upload_empty_directory_warning "result_json" noFail noFail noFail
    emptyStore rfl
  exact ⟨rfl, h.1, h.2.1, h.2.2.1, h.2.2.2.1, h.2.2.2.2.2.2⟩

/-- Counterexample to C8 as stated: a successful run's returned counters
dict holds exactly the five price/product keys — there is no `"errors"`
tally anywhere in it. -/
theorem upload_counters_lack_errors_key :
    (upload_json_to_firestore "result_json" noFail noFail noFail emptyStore
      [("a.json", [sampleProduct])]).status = "success" ∧
    (upload_json_to_firestore "result_json" noFail noFail noFail emptyStore
      [("a.json", [sampleProduct])]).counters =
      some [("price_updated", 1), ("price_skipped", 0), ("product_new", 1),
        ("product_updated", 0), ("product_skipped", 0)] ∧
    "errors" ∉ ((upload_json_to_firestore "result_json" noFail noFail noFail emptyStore
      [("a.json", [sampleProduct])]).counters.getD []).map Prod.fst := by
  refine ⟨rfl, rfl, by decide⟩

/-- C8 as amended: the returned counters dict tallies exactly five
categories — price updated, price skipped, product new, product updated,
product skipped — and no errors tally exists; a record whose store access
raises is logged (the price path classifies it `"error"`), no counter is
incremented for it, and the record loop continues with the remaining
records of the file, so a single record's failure never aborts the file. -/
theorem upload_counters_five_keys_and_continue_on_error :
    (∀ c : Counters, (countersMap c).map Prod.fst =
      ["price_updated", "price_skipped", "product_new", "product_updated",
        "product_skipped"]) ∧
    (∀ (beacon : Nat) (stop pf prodf : Nat → Bool) (s : USt) (p : Product)
      (ps : List Product),
      stop s.checks = false → pf s.ridx = true → prodf s.ridx = true → p.id ≠ "" →
      procRecords beacon stop pf prodf s (p :: ps) =
        procRecords beacon stop pf prodf
          {s with
            checks := s.checks + 1,
            ridx := s.ridx + 1,
            reads := s.reads + (if beacon = 1 ∨ beacon = 2 then 1 else 0)
              + (if beacon = 1 ∨ beacon = 3 then 1 else 0)} ps) := by
  refine ⟨fun c => rfl, ?_⟩
  intro beacon stop pf prodf s p ps h1 h2 h3 h4
  have hstep : procRecords beacon stop pf prodf s (p :: ps) =
      procRecords beacon stop pf prodf
        (processRecord beacon pf prodf p {s with checks := s.checks + 1}) ps := by
    simp [procRecords, h1]
  rw [hstep]
  congr 1
  by_cases hb1 : beacon = 1 ∨ beacon = 2 <;> by_cases hb2 : beacon = 1 ∨ beacon = 3 <;>
    simp [processRecord, h2, h3, h4, hb1, hb2]

/-- Witness for C8 (amended): the key list of a concrete counters value, and
a record whose price and product accesses both raise, processed without
touching store or counters while the loop goes on to the next record. -/
theorem upload_counters_five_keys_and_continue_on_error_witness :
    ((countersMap ⟨0, 0, 0, 0, 0⟩).map Prod.fst =
      ["price_updated", "price_skipped", "product_new", "product_updated",
        "product_skipped"]) ∧
    (procRecords 1 noFail (fun _ => true) (fun _ => true)
        ⟨emptyStore, ⟨0, 0, 0, 0, 0⟩, 0, 0, 0⟩ [sampleProduct, sampleProduct] =
      procRecords 1 noFail (fun _ => true) (fun _ => true)
        {(⟨emptyStore, ⟨0, 0, 0, 0, 0⟩, 0, 0, 0⟩ : USt) with
          checks := 0 + 1, ridx := 0 + 1,
          reads := 0 + (if (1 : Nat) = 1 ∨ (1 : Nat) = 2 then 1 else 0)
            + (if (1 : Nat) = 1 ∨ (1 : Nat) = 3 then 1 else 0)} [sampleProduct]) := by
  refine ⟨upload_counters_five_keys_and_continue_on_error.1 ⟨0, 0, 0, 0, 0⟩, ?_⟩
  exact upload_counters_five_keys_and_continue_on_error.2 1 noFail (fun _ => true)
    (fun _ => true) ⟨emptyStore, ⟨0, 0, 0, 0, 0⟩, 0, 0, 0⟩ sampleProduct [sampleProduct]
    rfl rfl rfl (by decide)

/-- Helper: record processing never evaluates the cancellation event. -/
theorem processRecord_checks (beacon : Nat) (pf prodf : Nat → Bool) (p : Product)
    (s : USt) : (processRecord beacon pf prodf p s).checks = s.checks := by
  by_cases h0 : p.id = ""
  · simp [processRecord, h0]
  · by_cases hb1 : beacon = 1 ∨ beacon = 2 <;> by_cases hb2 : beacon = 1 ∨ beacon = 3 <;>
      by_cases hpf : pf s.ridx <;> by_cases hpr : prodf s.ridx <;>
      cases hd : s.store.product p.id <;>
      simp [processRecord, h0, hb1, hb2, hpf, hpr, hd] <;>
      split <;> rfl

/-- Helper: processing `n` records consumes exactly `n` cancellation
checks. -/
theorem runRecs_checks (beacon : Nat) (pf prodf : Nat → Bool) :
    ∀ (l : List Product) (s : USt),
      (runRecs beacon pf prodf s l).checks = s.checks + l.length := by
  intro l
  induction l with
  | nil => intro s; simp [runRecs]
  | cons p ps ih =>
    intro s
    have hstep : runRecs beacon pf prodf s (p :: ps) =
        runRecs beacon pf prodf
          (processRecord beacon pf prodf p {s with checks := s.checks + 1}) ps := rfl
    rw [hstep, ih, processRecord_checks]
    show s.checks + 1 + ps.length = s.checks + (p :: ps).length
    simp [List.length_cons]
    omega

/-- Helper: when the cancellation event first shows set at the check before
record `j`, the record loop returns exactly the fold over the first `j`
records, flagged stopped, having consumed `j + 1` checks. -/
theorem procRecords_stops_at_first (beacon : Nat) (stop pf prodf : Nat → Bool) :
    ∀ (records : List Product) (s : USt) (j : Nat),
      j < records.length →
      stop (s.checks + j) = true →
      (∀ i, i < j → stop (s.checks + i) = false) →
      procRecords beacon stop pf prodf s records =
        ({runRecs beacon pf prodf s (records.take j) with
          checks := s.checks + j + 1}, true) := by
  intro records
  induction records with
  | nil =>
    intro s j hj
    exact absurd hj (by simp)
  | cons p ps ih =>
    intro s j hj hstop hmin
    cases j with
    | zero =>
      have h0 : stop s.checks = true := by simpa using hstop
      simp only [procRecords, h0, if_true]
      simp [runRecs]
    | succ j' =>
      have h0 : stop s.checks = false := by
        have := hmin 0 (Nat.succ_pos j')
        simpa using this
      have hrw : procRecords beacon stop pf prodf s (p :: ps) =
          procRecords beacon stop pf prodf
            (processRecord beacon pf prodf p {s with checks := s.checks + 1}) ps := by
        simp [procRecords, h0]
      rw [hrw]
      have hch : (processRecord beacon pf prodf p
          {s with checks := s.checks + 1}).checks = s.checks + 1 :=
        processRecord_checks beacon pf prodf p {s with checks := s.checks + 1}
      have ih' := ih (processRecord beacon pf prodf p {s with checks := s.checks + 1}) j'
        (by simpa using Nat.lt_of_succ_lt_succ hj)
        (by
          rw [hch]
          have harith : s.checks + 1 + j' = s.checks + (j' + 1) := by omega
          rw [harith]
          exact hstop)
        (by
          intro i hi
          rw [hch]
          have harith : s.checks + 1 + i = s.checks + (i + 1) := by omega
          rw [harith]
          exact hmin (i + 1) (by omega))
      rw [ih', hch]
      have htake : (p :: ps).take (j' + 1) = p :: ps.take j' := rfl
      rw [htake]
      have hrr : runRecs beacon pf prodf s (p :: ps.take j') =
          runRecs beacon pf prodf
            (processRecord beacon pf prodf p {s with checks := s.checks + 1})
            (ps.take j') := rfl
      rw [hrr]
      have harith : s.checks + 1 + j' + 1 = s.checks + (j' + 1) + 1 := by omega
      rw [harith]

/-- C7: during an upload run over snapshot files, if the cancellation flag
becomes set while the records of a file are being processed, the run stops
mid-file: that file is not deleted (no file is), the function returns
immediately with the `"stopped"` status carrying the counters accumulated
up to the record where the stop was observed, and no notification is sent;
whereas a file whose record loop completes without cancellation is deleted
before the next file is processed.  The third part pins down where a
stopped record loop halts: at the first set check, with the state being the
fold over the records before it. -/
theorem upload_stop_mid_file_keeps_file (beacon : Nat) (stop pf prodf : Nat → Bool)
    (s : USt) (name : String) (records : List Product)
    (rest : List (String × List Product)) :
    (stop s.checks = false →
      ∀ s' : USt,
        procRecords beacon stop pf prodf {s with checks := s.checks + 1} records =
          (s', true) →
        runFiles beacon stop pf prodf s ((name, records) :: rest) =
          { status := "stopped",
            message := "업로드 중단됨(파일: " ++ name ++ " 진행 중)",
            counters := some (countersMap s'.counters), notified := false,
            deleted := [], store := s'.store, reads := s'.reads }) ∧
    (stop s.checks = false →
      ∀ s' : USt,
        procRecords beacon stop pf prodf {s with checks := s.checks + 1} records =
          (s', false) →
        runFiles beacon stop pf prodf s ((name, records) :: rest) =
          { runFiles beacon stop pf prodf s' rest with
            deleted := name :: (runFiles beacon stop pf prodf s' rest).deleted }) ∧
    (∀ j : Nat, j < records.length →
      stop (s.checks + 1 + j) = true →
      (∀ i, i < j → stop (s.checks + 1 + i) = false) →
      procRecords beacon stop pf prodf {s with checks := s.checks + 1} records =
        ({runRecs beacon pf prodf {s with checks := s.checks + 1} (records.take j) with
          checks := s.checks + 1 + j + 1}, true)) := by
  refine ⟨?_, ?_, ?_⟩
  · intro h1 s' heq
    simp [runFiles, h1, heq]
  · intro h1 s' heq
    simp [runFiles, h1, heq]
  · intro j hj hstop hmin
    exact procRecords_stops_at_first beacon stop pf prodf records
      {s with checks := s.checks + 1} j hj hstop hmin

/-- Cancellation stream that fires from its third evaluation on. -/
def stopFrom2 : Nat → Bool := fun n => decide (2 ≤ n)

/-- Cancellation stream that fires from its fourth evaluation on. -/
def stopFrom3 : Nat → Bool := fun n => decide (3 ≤ n)

/-- Witness for C7: a stop observed at the first record of `a.json` keeps
the file and returns the zero counters; an uneventful file is deleted; a
stop before the second record halts after exactly one processed record. -/
theorem upload_stop_mid_file_keeps_file_witness :
    (runFiles 1 stopFrom2 noFail noFail ⟨emptyStore, ⟨0, 0, 0, 0, 0⟩, 1, 0, 0⟩
        [("a.json", [sampleProduct, sampleProduct]), ("b.json", [])] =
      { status := "stopped",
        message := "업로드 중단됨(파일: " ++ "a.json" ++ " 진행 중)",
        counters := some (countersMap (⟨0, 0, 0, 0, 0⟩ : Counters)),
        notified := false, deleted := [], store := emptyStore, reads := 0 }) ∧
    (runFiles 1 noFail noFail noFail ⟨emptyStore, ⟨0, 0, 0, 0, 0⟩, 1, 0, 0⟩
        [("a.json", [sampleProduct])] =
      { runFiles 1 noFail noFail noFail
          (procRecords 1 noFail noFail noFail
            {(⟨emptyStore, ⟨0, 0, 0, 0, 0⟩, 1, 0, 0⟩ : USt) with checks := 1 + 1}
            [sampleProduct]).1 [] with
        deleted := "a.json" :: (runFiles 1 noFail noFail noFail
          (procRecords 1 noFail noFail noFail
            {(⟨emptyStore, ⟨0, 0, 0, 0, 0⟩, 1, 0, 0⟩ : USt) with checks := 1 + 1}
            [sampleProduct]).1 []).deleted }) ∧
    (procRecords 1 stopFrom3 noFail noFail
        {(⟨emptyStore, ⟨0, 0, 0, 0, 0⟩, 1, 0, 0⟩ : USt) with checks := 1 + 1}
        [sampleProduct, sampleProduct] =
      ({runRecs 1 noFail noFail
          {(⟨emptyStore, ⟨0, 0, 0, 0, 0⟩, 1, 0, 0⟩ : USt) with checks := 1 + 1}
          ([sampleProduct, sampleProduct].take 1) with
        checks := 1 + 1 + 1 + 1}, true)) := by
  refine ⟨?_, ?_, ?_⟩
  · have h := (upload_stop_mid_file_keeps_file 1 stopFrom2 noFail noFail
      ⟨emptyStore, ⟨0, 0, 0, 0, 0⟩, 1, 0, 0⟩ "a.json" [sampleProduct, sampleProduct]
      [("b.json", [])]).1 rfl ⟨emptyStore, ⟨0, 0, 0, 0, 0⟩, 3, 0, 0⟩ rfl
    exact h
  · exact (upload_stop_mid_file_keeps_file 1 noFail noFail noFail
      ⟨emptyStore, ⟨0, 0, 0, 0, 0⟩, 1, 0, 0⟩ "a.json" [sampleProduct] []).2.1 rfl
      (procRecords 1 noFail noFail noFail
        {(⟨emptyStore, ⟨0, 0, 0, 0, 0⟩, 1, 0, 0⟩ : USt) with checks := 1 + 1}
        [sampleProduct]).1 rfl
  · have h := (upload_stop_mid_file_keeps_file 1 stopFrom3 noFail noFail
      ⟨emptyStore, ⟨0, 0, 0, 0, 0⟩, 1, 0, 0⟩ "a.json" [sampleProduct, sampleProduct]
      []).2.2 1 (by decide) rfl (by decide)
    exact h

end Emart
